import Mathlib

/-!
Verification of the Mandelbrot benchmark harness
(`bench/benchmark_mandelbrot_numba.py`) against its specification.

The source's float32 arithmetic is embedded as exact rational arithmetic
(`ℚ`): every arithmetic operation of the kernel is translated literally,
without rounding.  All structural / control-flow properties (loop bounds,
escape tests, buffer layout, checksum decimation, argument parsing) are
independent of rounding and are settled over this exact model.
-/

namespace MandelBench

/-- The body of `mandelbrot_kernel_parallel`'s inner `for it in range(max_iter)`
loop (source lines 44-58), for one grid point `c = (cRe, cIm)`.  The Python
loop is encoded structurally with `fuel` = the number of loop iterations still
to run, so at every call reached from `mandelbrotPoint` we have
`it + fuel = maxIter`.  `escape_iter` starts as `max_iter` and is only
overwritten on break, so running out of fuel returns `maxIter`. -/
def mandelLoop (cRe cIm : ℚ) (maxIter : Nat) (zr zi : ℚ) (it : Nat) : Nat → ℚ
  | 0 => (maxIter : ℚ)
  | fuel + 1 =>
    if zr * zr + zi * zi > 4 then (it : ℚ)
    else
      mandelLoop cRe cIm maxIter (zr * zr - zi * zi + cRe) (2 * zr * zi + cIm) (it + 1) fuel

/-- One grid point of `mandelbrot_kernel_parallel`: starts at `z = (0, 0)`,
iteration counter `it = 0`, with `maxIter` loop iterations available; returns
the value stored into `out[iy, ix]`. -/
def mandelbrotPoint (cRe cIm : ℚ) (maxIter : Nat) : ℚ :=
  mandelLoop cRe cIm maxIter 0 0 0 maxIter

/-- The escape-time loop exactly as the spec words it (§4.2): "starting at
`z=0`, repeatedly apply `z ← z² + c`; after each step, if `|z|² > 4.0` record
the current iteration index as the escape iteration and stop early; if the cap
`max_iter` is reached without escape, record `max_iter` as the result."
`steps` counts the updates already applied; each pass applies one more update
and then tests the escape condition on the updated value. -/
def specEscapeLoop (cRe cIm : ℚ) (maxIter : Nat) (zr zi : ℚ) (steps : Nat) : Nat → ℚ
  | 0 => (maxIter : ℚ)
  | fuel + 1 =>
    let zr2 := zr * zr - zi * zi + cRe
    let zi2 := 2 * zr * zi + cIm
    if zr2 * zr2 + zi2 * zi2 > 4 then ((steps + 1 : Nat) : ℚ)
    else specEscapeLoop cRe cIm maxIter zr2 zi2 (steps + 1) fuel

/-- The spec's description of the escape-time kernel, as a whole-point
function. -/
def specEscapeTime (cRe cIm : ℚ) (maxIter : Nat) : ℚ :=
  specEscapeLoop cRe cIm maxIter 0 0 0 maxIter

theorem mandelLoop_eq_specLoop (cRe cIm : ℚ) (maxIter : Nat) :
    ∀ fuel it zr zi, ¬ zr * zr + zi * zi > 4 → it + fuel = maxIter →
      mandelLoop cRe cIm maxIter zr zi it fuel
        = specEscapeLoop cRe cIm maxIter zr zi it fuel := by
  intro fuel
  induction fuel with
  | zero => intro it zr zi _ _; rfl
  | succ f ih =>
    intro it zr zi hz hcount
    rw [mandelLoop, specEscapeLoop]
    rw [if_neg hz]
    by_cases hesc :
        (zr * zr - zi * zi + cRe) * (zr * zr - zi * zi + cRe)
          + (2 * zr * zi + cIm) * (2 * zr * zi + cIm) > 4
    · simp only [hesc, if_pos]
      cases f with
      | zero =>
        have : it + 1 = maxIter := by omega
        rw [mandelLoop]
        exact_mod_cast congrArg (fun n => ((n : Nat) : ℚ)) this.symm
      | succ f2 =>
        rw [mandelLoop, if_pos hesc]
    · simp only [hesc, if_neg, not_false_iff]
      exact ih (it + 1) _ _ hesc (by omega)

/-- Claim C6: for every point `c = (cRe, cIm)` and every `max_iter`, the
escape-time kernel computes exactly what the spec describes: starting at
`z = 0` it repeatedly applies `z ← z² + c`, records the current iteration
index and stops as soon as `|z|² > 4` after a step, and records `max_iter`
when the cap is reached without escape. -/
theorem mandelbrotPoint_eq_specEscapeTime (cRe cIm : ℚ) (maxIter : Nat) :
    mandelbrotPoint cRe cIm maxIter = specEscapeTime cRe cIm maxIter := by
  unfold mandelbrotPoint specEscapeTime
  exact mandelLoop_eq_specLoop cRe cIm maxIter maxIter 0 0 0 (by norm_num) (by omega)

theorem mandelLoop_le (cRe cIm : ℚ) (maxIter : Nat) :
    ∀ fuel it zr zi, it + fuel = maxIter →
      mandelLoop cRe cIm maxIter zr zi it fuel ≤ (maxIter : ℚ) := by
  intro fuel
  induction fuel with
  | zero => intro it zr zi _; exact le_refl _
  | succ f ih =>
    intro it zr zi hcount
    rw [mandelLoop]
    by_cases hz : zr * zr + zi * zi > 4
    · rw [if_pos hz]
      exact_mod_cast Nat.cast_le.mpr (by omega : it ≤ maxIter)
    · rw [if_neg hz]
      exact ih (it + 1) _ _ (by omega)

theorem le_mandelLoop (cRe cIm : ℚ) (maxIter : Nat) :
    ∀ fuel it zr zi, it + fuel = maxIter →
      (it : ℚ) ≤ mandelLoop cRe cIm maxIter zr zi it fuel := by
  intro fuel
  induction fuel with
  | zero =>
    intro it zr zi hcount
    rw [mandelLoop]
    exact_mod_cast Nat.cast_le.mpr (by omega : it ≤ maxIter)
  | succ f ih =>
    intro it zr zi hcount
    rw [mandelLoop]
    by_cases hz : zr * zr + zi * zi > 4
    · rw [if_pos hz]
    · rw [if_neg hz]
      calc (it : ℚ) ≤ ((it + 1 : Nat) : ℚ) := by exact_mod_cast Nat.le_succ it
        _ ≤ _ := ih (it + 1) _ _ (by omega)

theorem mandelbrotPoint_nonneg (cRe cIm : ℚ) (maxIter : Nat) :
    0 ≤ mandelbrotPoint cRe cIm maxIter := by
  have h := le_mandelLoop cRe cIm maxIter maxIter 0 0 0 (by omega)
  simpa [mandelbrotPoint] using h

theorem mandelbrotPoint_le (cRe cIm : ℚ) (maxIter : Nat) :
    mandelbrotPoint cRe cIm maxIter ≤ (maxIter : ℚ) :=
  mandelLoop_le cRe cIm maxIter maxIter 0 0 0 (by omega)

/-- Claim C10: the escape test runs before each update and `z` starts at `0`
with `|z|² = 0 ≤ 4`, so the test at iteration index `0` never fires: for
`max_iter ≥ 1` the recorded value is at least `1`. -/
theorem one_le_mandelbrotPoint (cRe cIm : ℚ) (maxIter : Nat) (h : 1 ≤ maxIter) :
    1 ≤ mandelbrotPoint cRe cIm maxIter := by
  obtain ⟨f, rfl⟩ : ∃ f, maxIter = f + 1 := ⟨maxIter - 1, by omega⟩
  unfold mandelbrotPoint
  rw [mandelLoop, if_neg (by norm_num)]
  have h1 := le_mandelLoop cRe cIm (f + 1) f 1
    (0 * 0 - 0 * 0 + cRe) (2 * 0 * 0 + cIm) (by omega)
  exact_mod_cast h1

/-- Witness for C10 at the concrete point `c = (0, 0)`, `max_iter = 1`. -/
theorem one_le_mandelbrotPoint_witness :
    1 ≤ 1 ∧ 1 ≤ mandelbrotPoint 0 0 1 :=
  ⟨by decide, one_le_mandelbrotPoint 0 0 1 (by decide)⟩

/-- Counterexample to claim C1 as stated: at `c = (3, 0)` we have
`|c|² = 9 > 4` (so `|c| > 2`) and `max_iter = 1 ≥ 1`, yet the kernel records
`1 = max_iter`, not a value strictly below `max_iter`: the escape test
precedes each update, so with one single loop iteration only `z₀ = 0` is ever
tested. -/
theorem escape_before_cap_counterexample :
    (3 : ℚ) * 3 + 0 * 0 > 4 ∧ 1 ≤ (1 : Nat) ∧
      ¬ mandelbrotPoint 3 0 1 < ((1 : Nat) : ℚ) := by
  refine ⟨by norm_num, le_refl 1, ?_⟩
  have h1 : mandelbrotPoint 3 0 1 = 1 := by
    unfold mandelbrotPoint
    rw [show (1 : Nat) = 0 + 1 from rfl]
    rw [mandelLoop, if_neg (by norm_num)]
    rw [mandelLoop]
    norm_num
  rw [h1]
  norm_num

/-- Claim C1 as amended: for `|c| > 2` (i.e. `cRe² + cIm² > 4`) and every
`max_iter ≥ 2`, the recorded iteration value is strictly less than
`max_iter` (the escape at iteration index 1 fires). -/
theorem escape_before_cap (cRe cIm : ℚ) (maxIter : Nat)
    (hc : cRe * cRe + cIm * cIm > 4) (hm : 2 ≤ maxIter) :
    mandelbrotPoint cRe cIm maxIter < (maxIter : ℚ) := by
  obtain ⟨f, rfl⟩ : ∃ f, maxIter = f + 2 := ⟨maxIter - 2, by omega⟩
  unfold mandelbrotPoint
  rw [mandelLoop, if_neg (by norm_num)]
  have hz1 : (0 * 0 - 0 * 0 + cRe) * (0 * 0 - 0 * 0 + cRe)
      + (2 * 0 * 0 + cIm) * (2 * 0 * 0 + cIm) > 4 := by
    ring_nf
    ring_nf at hc
    linarith
  rw [mandelLoop, if_pos hz1]
  have : ((1 : Nat) : ℚ) < ((f + 2 : Nat) : ℚ) := by exact_mod_cast by omega
  exact_mod_cast this

/-- Witness for the amended C1 at `c = (3, 0)`, `max_iter = 2`. -/
theorem escape_before_cap_witness :
    ((3 : ℚ) * 3 + 0 * 0 > 4 ∧ 2 ≤ 2) ∧
      mandelbrotPoint 3 0 2 < ((2 : Nat) : ℚ) :=
  ⟨⟨by norm_num, le_refl 2⟩, escape_before_cap 3 0 2 (by norm_num) (le_refl 2)⟩

/-- One output row of `mandelbrot_kernel_parallel`: the inner
`for ix in range(w)` loop applied to one row of the coordinate arrays. -/
def kernelRow (maxIter : Nat) (crRow ciRow : List ℚ) : List ℚ :=
  List.zipWith (fun a b => mandelbrotPoint a b maxIter) crRow ciRow

/-- The whole-grid escape-time driver: `mandelbrot_kernel_parallel` populates
`out` with one iteration result per grid point, row by row (source lines
40-58).  The per-point computation has no cross-point dependency. -/
def mandelbrotKernel (cr ci : List (List ℚ)) (maxIter : Nat) : List (List ℚ) :=
  (cr.zip ci).map (fun rc => kernelRow maxIter rc.1 rc.2)

/-- Modelled from the spec: a parallel run (`nb.prange` with worker count > 1,
an external collaborator) partitions the output rows across workers (row-wise
partitioning, spec §4.3/§5); each worker computes the kernel on its own chunk
of rows and the chunks are reassembled in row order.  `parts` is the row-wise
partition: its concatenation is the sequence of (cr-row, ci-row) pairs of the
grid. -/
def mandelbrotKernelPar (parts : List (List (List ℚ × List ℚ))) (maxIter : Nat) :
    List (List ℚ) :=
  (parts.map (fun chunk => chunk.map (fun rc => kernelRow maxIter rc.1 rc.2))).flatten

/-- `stride = max(1, nitems // 17)` (source line 81). -/
def strideOf (nitems : Nat) : Nat := max 1 (nitems / 17)

/-- Python slice `a[::k]` for `k ≥ 1`: every `k`-th element, starting at
index 0. -/
def sliceEvery (k : Nat) : List ℚ → List ℚ
  | [] => []
  | x :: xs => x :: sliceEvery k (xs.drop (k - 1))
termination_by l => l.length
decreasing_by simp [List.length_drop]; omega

/-- The checksum of `run_for_threads` (source lines 81-82):
`float(np.ravel(out)[::stride].sum())` with `stride = max(1, nitems // 17)`,
in exact arithmetic. -/
def runChecksum (nitems : Nat) (out : List (List ℚ)) : ℚ :=
  (sliceEvery (strideOf nitems) out.flatten).sum

/-- Claim C5: the escape-time kernel run sequentially and run with the rows
partitioned across any number of workers produces element-for-element
identical output buffers, and hence identical checksums for every `nitems`
decimation. -/
theorem parallel_run_deterministic (cr ci : List (List ℚ)) (maxIter : Nat)
    (parts : List (List (List ℚ × List ℚ))) (hpart : parts.flatten = cr.zip ci) :
    mandelbrotKernelPar parts maxIter = mandelbrotKernel cr ci maxIter ∧
    ∀ nitems, runChecksum nitems (mandelbrotKernelPar parts maxIter)
      = runChecksum nitems (mandelbrotKernel cr ci maxIter) := by
  have hout : mandelbrotKernelPar parts maxIter = mandelbrotKernel cr ci maxIter := by
    unfold mandelbrotKernelPar mandelbrotKernel
    rw [← List.map_flatten, hpart]
  exact ⟨hout, fun nitems => by rw [hout]⟩

/-- Witness for C5: a 2-row grid split into two one-row worker chunks. -/
theorem parallel_run_deterministic_witness :
    ([[([0], [0])], [([3], [0])]] : List (List (List ℚ × List ℚ))).flatten
        = ([[0], [3]] : List (List ℚ)).zip ([[0], [0]] : List (List ℚ)) ∧
    mandelbrotKernelPar [[([0], [0])], [([3], [0])]] 5
        = mandelbrotKernel [[0], [3]] [[0], [0]] 5 :=
  ⟨rfl, (parallel_run_deterministic [[0], [3]] [[0], [0]] 5
    [[([0], [0])], [([3], [0])]] rfl).1⟩

theorem mem_kernelRow (maxIter : Nat) :
    ∀ (l1 l2 : List ℚ) (v : ℚ), v ∈ kernelRow maxIter l1 l2 →
      ∃ a b, v = mandelbrotPoint a b maxIter := by
  intro l1
  induction l1 with
  | nil => intro l2 v hv; simp [kernelRow] at hv
  | cons a as ih =>
    intro l2 v hv
    cases l2 with
    | nil => simp [kernelRow] at hv
    | cons b bs =>
      simp only [kernelRow, List.zipWith_cons_cons, List.mem_cons] at hv
      rcases hv with h | h
      · exact ⟨a, b, h⟩
      · exact ih bs v h

/-- Claim C7: for every grid (any coordinate arrays) and every
`max_iter ≥ 1`, every value the escape-time driver records lies in the closed
interval `[0, max_iter]`. -/
theorem kernel_values_in_range (cr ci : List (List ℚ)) (maxIter : Nat)
    (_hm : 1 ≤ maxIter) :
    ∀ row ∈ mandelbrotKernel cr ci maxIter, ∀ v ∈ row,
      0 ≤ v ∧ v ≤ (maxIter : ℚ) := by
  intro row hrow v hv
  obtain ⟨rc, _, hrc⟩ := List.mem_map.mp hrow
  obtain ⟨a, b, hab⟩ := mem_kernelRow maxIter rc.1 rc.2 v (hrc ▸ hv)
  exact hab ▸ ⟨mandelbrotPoint_nonneg a b maxIter, mandelbrotPoint_le a b maxIter⟩

/-- Witness for C7 on the one-point grid `c = (0, 0)` with `max_iter = 1`. -/
theorem kernel_values_in_range_witness :
    1 ≤ 1 ∧ ∀ row ∈ mandelbrotKernel [[0]] [[0]] 1, ∀ v ∈ row,
      0 ≤ v ∧ v ≤ ((1 : Nat) : ℚ) :=
  ⟨le_refl 1, kernel_values_in_range [[0]] [[0]] 1 (le_refl 1)⟩

/-- Modelled from the spec: the external array library's linear-space sampler
(`np.linspace(start, stop, num)`, endpoint included; spec §4.1/§6), in exact
arithmetic: `num` evenly spaced samples over `[start, stop]`; a one-point span
degenerates to the start value. -/
def linspace (start stop : ℚ) (num : Nat) : List ℚ :=
  (List.range num).map (fun i : Nat =>
    if num ≤ 1 then start else start + (i : ℚ) * (stop - start) / ((num : ℚ) - 1))

/-- Modelled from the spec: first component `cr2` of `np.meshgrid(x, y)`:
row `iy` is a copy of `x` (spec §4.1: horizontal sampling is row-invariant). -/
def meshRe (x y : List ℚ) : List (List ℚ) := y.map (fun _ => x)

/-- Modelled from the spec: second component `ci2` of `np.meshgrid(x, y)`:
row `iy` holds element `iy` of `y`, repeated `len(x)` times. -/
def meshIm (x y : List ℚ) : List (List ℚ) := y.map (fun v => x.map (fun _ => v))

/-- The flattened real-coordinate array of the grid built at source lines
129-131, generalized over the viewport: `np.ravel(cr2)` for
`x = linspace(re_min, re_max, width)`, `y = linspace(im_max, im_min, height)`. -/
def gridRe (reMin reMax imMax imMin : ℚ) (width height : Nat) : List ℚ :=
  (meshRe (linspace reMin reMax width) (linspace imMax imMin height)).flatten

/-- The flattened imaginary-coordinate array of the same grid:
`np.ravel(ci2)`. -/
def gridIm (reMin reMax imMax imMin : ℚ) (width height : Nat) : List ℚ :=
  (meshIm (linspace reMin reMax width) (linspace imMax imMin height)).flatten

/-- The spec's "`i`-th of `num` evenly spaced samples over `[start, stop]`". -/
def evenSample (start stop : ℚ) (num i : Nat) : ℚ :=
  if num ≤ 1 then start else start + (i : ℚ) * (stop - start) / ((num : ℚ) - 1)

theorem length_linspace (start stop : ℚ) (num : Nat) :
    (linspace start stop num).length = num := by
  unfold linspace
  rw [List.length_map, List.length_range]

theorem linspace_getD (start stop : ℚ) (num i : Nat) (h : i < num) :
    (linspace start stop num).getD i 0 = evenSample start stop num i := by
  unfold linspace evenSample
  rw [List.getD_eq_getElem?_getD, List.getElem?_map, List.getElem?_range h]
  rfl

theorem flatten_getD_uniform (w : Nat) :
    ∀ (rows : List (List ℚ)), (∀ r ∈ rows, r.length = w) →
      ∀ row col, row < rows.length → col < w →
        rows.flatten.getD (row * w + col) 0 = (rows.getD row []).getD col 0 := by
  intro rows
  induction rows with
  | nil => intro _ row col hrow _; simp at hrow
  | cons r rest ih =>
    intro hlen row col hrow hcol
    have hr : r.length = w := hlen r (by simp)
    cases row with
    | zero =>
      simp only [List.flatten_cons, List.getD_eq_getElem?_getD, Nat.zero_mul,
        Nat.zero_add, List.getD_cons_zero]
      rw [List.getElem?_append_left (by omega)]
      simp [List.getD_eq_getElem?_getD]
    | succ row2 =>
      have hidx : r.length ≤ (row2 + 1) * w + col := by
        rw [hr]; calc w ≤ (row2 + 1) * w := by nlinarith
          _ ≤ (row2 + 1) * w + col := Nat.le_add_right _ _
      simp only [List.flatten_cons, List.getD_eq_getElem?_getD, List.getD_cons_succ]
      rw [List.getElem?_append_right hidx]
      have harith : (row2 + 1) * w + col - r.length = row2 * w + col := by
        rw [hr]; ring_nf; omega
      rw [harith]
      have := ih (fun r2 hr2 => hlen r2 (by simp [hr2])) row2 col (by simpa using hrow) hcol
      simpa [List.getD_eq_getElem?_getD] using this

theorem meshRe_row (x y : List ℚ) (row : Nat) (h : row < y.length) :
    (meshRe x y).getD row [] = x := by
  unfold meshRe
  rw [List.getD_eq_getElem?_getD, List.getElem?_map, List.getElem?_eq_getElem h]
  rfl

theorem meshIm_row (x y : List ℚ) (row : Nat) (h : row < y.length) :
    (meshIm x y).getD row [] = x.map (fun _ => y.getD row 0) := by
  unfold meshIm
  rw [List.getD_eq_getElem?_getD, List.getElem?_map, List.getElem?_eq_getElem h]
  rw [List.getD_eq_getElem?_getD, List.getElem?_eq_getElem h]
  rfl

theorem map_const_getD (x : List ℚ) (v : ℚ) (col : Nat) (h : col < x.length) :
    (x.map (fun _ => v)).getD col 0 = v := by
  rw [List.getD_eq_getElem?_getD, List.getElem?_map, List.getElem?_eq_getElem h]
  rfl

/-- Claim C8: the grid generator produces flattened coordinate arrays of
length `width * height` laid out row-major: element `row * width + col` of the
real array is the `col`-th of `width` evenly spaced samples over
`[re_min, re_max]`, and of the imaginary array the `row`-th of `height`
evenly spaced samples over `[im_max, im_min]` (descending); consequently the
real coordinate at a fixed column is the same in any two rows. -/
theorem grid_layout (reMin reMax imMax imMin : ℚ) (width height : Nat)
    (_hw : 0 < width) (_hh : 0 < height) :
    (gridRe reMin reMax imMax imMin width height).length = width * height ∧
    (gridIm reMin reMax imMax imMin width height).length = width * height ∧
    (∀ row col, row < height → col < width →
      (gridRe reMin reMax imMax imMin width height).getD (row * width + col) 0
          = evenSample reMin reMax width col ∧
      (gridIm reMin reMax imMax imMin width height).getD (row * width + col) 0
          = evenSample imMax imMin height row) ∧
    (∀ r1 r2 col, r1 < height → r2 < height → col < width →
      (gridRe reMin reMax imMax imMin width height).getD (r1 * width + col) 0
        = (gridRe reMin reMax imMax imMin width height).getD (r2 * width + col) 0) := by
  have hx : (linspace reMin reMax width).length = width := length_linspace _ _ _
  have hy : (linspace imMax imMin height).length = height := length_linspace _ _ _
  have hreLen : (gridRe reMin reMax imMax imMin width height).length = width * height := by
    unfold gridRe meshRe
    rw [List.map_const', List.length_flatten, List.map_replicate,
      List.sum_const_nat, hx, hy, Nat.mul_comm]
  have himLen : (gridIm reMin reMax imMax imMin width height).length = width * height := by
    unfold gridIm meshIm
    rw [List.length_flatten, List.map_map]
    have hcomp : (List.length ∘ fun v : ℚ => (linspace reMin reMax width).map
        (fun _ => v)) = fun _ : ℚ => width := by
      funext v
      simp [List.length_map, hx]
    rw [hcomp, List.map_const', List.sum_const_nat, hy, Nat.mul_comm]
  have hre : ∀ row col, row < height → col < width →
      (gridRe reMin reMax imMax imMin width height).getD (row * width + col) 0
        = evenSample reMin reMax width col := by
    intro row col hrow hcol
    unfold gridRe
    rw [flatten_getD_uniform width _ (by intro r hr; simp [meshRe] at hr; simp [hr, hx])
      row col (by simp [meshRe, hy, hrow]) hcol]
    rw [meshRe_row _ _ row (by omega)]
    exact linspace_getD _ _ _ _ hcol
  have him : ∀ row col, row < height → col < width →
      (gridIm reMin reMax imMax imMin width height).getD (row * width + col) 0
        = evenSample imMax imMin height row := by
    intro row col hrow hcol
    unfold gridIm
    rw [flatten_getD_uniform width _
      (by intro r hr; simp [meshIm] at hr; obtain ⟨v, -, hv⟩ := hr; simp [← hv, hx])
      row col (by simp [meshIm, hy, hrow]) hcol]
    rw [meshIm_row _ _ row (by omega)]
    rw [map_const_getD _ _ col (by omega)]
    exact linspace_getD _ _ _ _ hrow
  refine ⟨hreLen, himLen, fun row col hrow hcol => ⟨hre row col hrow hcol,
    him row col hrow hcol⟩, fun r1 r2 col h1 h2 hcol => ?_⟩
  rw [hre r1 col h1 hcol, hre r2 col h2 hcol]

/-- Witness for C8 on a concrete 2×2 grid over the source's viewport. -/
theorem grid_layout_witness :
    ((0 : Nat) < 2 ∧ (0 : Nat) < 2) ∧
      (gridRe (-2) (3/5) (11/10) (-11/10) 2 2).getD (1 * 2 + 1) 0
        = evenSample (-2) (3/5) 2 1 :=
  ⟨⟨by decide, by decide⟩,
    ((grid_layout (-2) (3/5) (11/10) (-11/10) 2 2 (by decide) (by decide)).2.2.1
      1 1 (by decide) (by decide)).1⟩

/-- The spec's checksum (§4.4 step 3): the elements of the flattened buffer at
indices `0, k, 2k, ...` with `k = max(1, nitems // 17)`, summed; there are
`⌈nitems / k⌉` such indices below `nitems`. -/
def specChecksum (out : List ℚ) : ℚ :=
  ((List.range ((out.length + max 1 (out.length / 17) - 1) / max 1 (out.length / 17))).map
    (fun i => out.getD (i * max 1 (out.length / 17)) 0)).sum

theorem sliceEvery_eq_map_range (k : Nat) (hk : 1 ≤ k) :
    ∀ n (l : List ℚ), l.length ≤ n →
      sliceEvery k l
        = (List.range ((l.length + k - 1) / k)).map (fun i => l.getD (i * k) 0) := by
  intro n
  induction n with
  | zero =>
    intro l hl
    obtain rfl : l = [] := List.eq_nil_of_length_eq_zero (by omega)
    rw [sliceEvery]
    have h0 : List.length ([] : List ℚ) = 0 := rfl
    have : (List.length ([] : List ℚ) + k - 1) / k = 0 := by
      rw [h0]; exact Nat.div_eq_of_lt (by omega)
    rw [this, List.range_zero, List.map_nil]
  | succ n ih =>
    intro l hl
    cases l with
    | nil =>
      rw [sliceEvery]
      have h0 : List.length ([] : List ℚ) = 0 := rfl
      have : (List.length ([] : List ℚ) + k - 1) / k = 0 := by
        rw [h0]; exact Nat.div_eq_of_lt (by omega)
      rw [this, List.range_zero, List.map_nil]
    | cons x xs =>
      rw [sliceEvery]
      have hcount : ((x :: xs).length + k - 1) / k = xs.length / k + 1 := by
        have h1 : (x :: xs).length + k - 1 = xs.length + k := by
          simp only [List.length_cons]; omega
        rw [h1, Nat.add_div_right _ (by omega)]
      have hcount2 : ((xs.drop (k - 1)).length + k - 1) / k = xs.length / k := by
        rcases Nat.lt_or_ge xs.length (k - 1) with hsm | hlg
        · have h1 : (xs.drop (k - 1)).length = 0 := by simp [List.length_drop]; omega
          rw [h1]
          rw [Nat.div_eq_of_lt (by omega), Nat.div_eq_of_lt (by omega)]
        · have h1 : (xs.drop (k - 1)).length + k - 1 = xs.length := by
            simp [List.length_drop]; omega
          rw [h1]
      have hih := ih (xs.drop (k - 1)) (by
        simp only [List.length_drop]
        simp only [List.length_cons] at hl
        omega)
      rw [hih, hcount, hcount2, List.range_succ_eq_map, List.map_cons, List.map_map]
      congr 1
      · rw [List.getD_eq_getElem?_getD]
        simp
      · apply List.map_congr_left
        intro i _
        simp only [Function.comp]
        rw [List.getD_eq_getElem?_getD, List.getD_eq_getElem?_getD, List.getElem?_drop]
        have harith : Nat.succ i * k = ((k - 1) + i * k) + 1 := by
          have := Nat.succ_mul i k
          omega
        rw [harith, List.getElem?_cons_succ]

/-- Claim C4: for every output buffer, the reported checksum equals the sum of
exactly the elements of the flattened buffer at indices `0, k, 2k, ...` where
`k = max(1, nitems // 17)` (summation is exact in this embedding, so the
64-bit accumulation of the spec introduces no deviation). -/
theorem runChecksum_eq_specChecksum (out : List (List ℚ)) :
    runChecksum out.flatten.length out = specChecksum out.flatten := by
  unfold runChecksum specChecksum strideOf
  rw [sliceEvery_eq_map_range (max 1 (out.flatten.length / 17)) (le_max_left 1 _)
    out.flatten.length out.flatten (le_refl _)]

/-- Strip leading and trailing whitespace, as Python's `int()` does before
parsing (tokens are modelled as their character lists). -/
def pyStrip (l : List Char) : List Char :=
  ((l.dropWhile Char.isWhitespace).reverse.dropWhile Char.isWhitespace).reverse

/-- The value of a non-empty all-digit character sequence, else `none`. -/
def digitsVal (l : List Char) : Option Nat :=
  if l.isEmpty then none
  else if l.all Char.isDigit then
    some (l.foldl (fun acc c => acc * 10 + (c.toNat - 48)) 0)
  else none

/-- Modelled from the spec: Python's built-in `int()` applied to a
command-line token (an external collaborator of the benchmark core): optional
surrounding whitespace, an optional sign, then one or more ASCII digits;
any other token raises `ValueError`, modelled as `none`.  (Underscore digit
grouping is not modelled; no claim exercises it.) -/
def pyIntChars (l : List Char) : Option Int :=
  match pyStrip l with
  | [] => none
  | c :: cs =>
    if c == '-' then (digitsVal cs).map (fun n => -(n : Int))
    else if c == '+' then (digitsVal cs).map (fun n => (n : Int))
    else (digitsVal (c :: cs)).map (fun n => (n : Int))

/-- Modelled from the spec: Python's `str.lower()` on an ASCII token. -/
def pyLowerChars (l : List Char) : List Char := l.map Char.toLower

/-- Python's `s.split(sep, 1)` on a character list: `some (before, after)`
around the first occurrence of `sep`, or `none` when `sep` does not occur. -/
def splitFirst (sep : Char) : List Char → Option (List Char × List Char)
  | [] => none
  | c :: cs =>
    if c == sep then some ([], cs)
    else
      match splitFirst sep cs with
      | none => none
      | some (a, b) => some (c :: a, b)

/-- `parse_dims_arg` (source lines 25-36).  An exception raised inside
(the explicit `ValueError`s or an `int()` failure) is an `.error`, since
`main` catches every exception from this call uniformly.  The error strings
model the exception messages (quotes around offending tokens elided). -/
def parse_dims_arg (arg : String) : Except String (Int × Int) :=
  match splitFirst 'x' (pyLowerChars arg.data) with
  | none => .error "expected widthxheight"
  | some (p0, p1) =>
    if p0.isEmpty || p1.isEmpty then .error "invalid widthxheight format"
    else
      match pyIntChars p0 with
      | none => .error ("invalid literal for int with base 10: " ++ String.mk p0)
      | some w =>
        match pyIntChars p1 with
        | none => .error ("invalid literal for int with base 10: " ++ String.mk p1)
        | some h =>
          if w ≤ 0 || h ≤ 0 then .error "width and height must be positive"
          else .ok (w, h)

/-- The observable outcome of `main` (source lines 86-155) on a command line:
`usage` is a printed usage error followed by `return 1` (non-zero exit, no
benchmark computation); `exn` is an uncaught exception (traceback, non-zero
exit, not a usage error); `run` proceeds to the benchmark with the given
configuration and exits 0. -/
inductive MainOutcome where
  | usage (msg : String)
  | exn (msg : String)
  | run (width height repeats maxIter : Int)
deriving DecidableEq

/-- `main` after the size arguments are settled (source lines 113-131):
`argi` is the index into `args` (the argument list without the script name;
`args[i] = sys.argv[i+1]`) where `repeats` would sit.  `int()` on the
`repeats` / `max_iter` tokens is *not* wrapped in try/except, so a bad token
is an uncaught exception; the `nitems <= 0` validation runs after those, and
`np.linspace` (external) raises on a negative sample count only after all
validation has passed. -/
def mainAfterSize (args : List String) (width height : Int) (argi : Nat) : MainOutcome :=
  let nitems := width * height
  let repeatsTok? := if args.length > argi then some (args.getD argi "") else none
  match repeatsTok?.map (fun t => pyIntChars t.data) with
  | some none => .exn ("ValueError: invalid literal for int with base 10: "
      ++ args.getD argi "")
  | other =>
    let repeats : Int := match other with
      | some (some r) => r
      | _ => 6
    let maxIterTok? := if args.length > argi + 1 then some (args.getD (argi + 1) "") else none
    match maxIterTok?.map (fun t => pyIntChars t.data) with
    | some none => .exn ("ValueError: invalid literal for int with base 10: "
        ++ args.getD (argi + 1) "")
    | other2 =>
      let maxIter : Int := match other2 with
        | some (some m) => m
        | _ => 200
      if args.length > argi + 2 then .usage "too many args"
      else if nitems ≤ 0 || repeats ≤ 0 || maxIter ≤ 0 then
        .usage ("invalid args: width=" ++ toString width ++ " height=" ++ toString height
          ++ " repeats=" ++ toString repeats ++ " max_iter=" ++ toString maxIter
          ++ " (size via widthxheight or width height; max_iter > 0)")
      else if width < 0 || height < 0 then
        .exn "ValueError: number of samples must be non-negative"
      else .run width height repeats maxIter

/-- The argument handling of `main` (source lines 86-131). -/
def mainModel (args : List String) : MainOutcome :=
  match args with
  | [] => mainAfterSize [] 1200 800 0
  | a0 :: _ =>
    if (pyLowerChars a0.data).contains 'x' then
      match parse_dims_arg a0 with
      | .ok (w, h) => mainAfterSize args w h 1
      | .error e => .usage ("invalid size arg " ++ a0 ++ ": " ++ e ++ " (use widthxheight)")
    else
      if args.length < 2 then .usage "invalid size args: expected width height or widthxheight"
      else
        match pyIntChars a0.data with
        | none => .usage "invalid size args: expected width height or widthxheight"
        | some w =>
          match pyIntChars (args.getD 1 "").data with
          | none => .usage "invalid size args: expected width height or widthxheight"
          | some h => mainAfterSize args w h 2

/-- Claim C2 fails on the code (code bug): a negative width paired with a
negative height in the two-integer form passes the `nitems <= 0` validation
(`(-5) * (-3) = 15 > 0`) and reaches the grid generation, which dies with an
uncaught exception instead of the descriptive usage error the spec requires;
likewise a non-integer `repeats` token is fed to `int()` outside any
try/except and also dies with an uncaught exception.  Neither input produces
a `usage` outcome. -/
theorem main_invalid_args_code_bug :
    mainModel ["-5", "-3"]
        = MainOutcome.exn "ValueError: number of samples must be non-negative" ∧
    mainModel ["800x600", "2.5"]
        = MainOutcome.exn "ValueError: invalid literal for int with base 10: 2.5" ∧
    (∀ msg, mainModel ["-5", "-3"] ≠ MainOutcome.usage msg) := by
  refine ⟨rfl, rfl, fun msg h => ?_⟩
  rw [show mainModel ["-5", "-3"]
    = MainOutcome.exn "ValueError: number of samples must be non-negative" from rfl] at h
  exact MainOutcome.noConfusion h

/-- Claim C9: the three invalid CLI scenarios all produce a usage error
(`return 1`, no benchmark computation): a zero dimension in the size token, a
non-numeric size token, and a fourth positional argument (reported as
"too many args"). -/
theorem cli_invalid_scenarios :
    mainModel ["0x100"] = MainOutcome.usage
        "invalid size arg 0x100: width and height must be positive (use widthxheight)" ∧
    mainModel ["abcx100"] = MainOutcome.usage
        "invalid size arg abcx100: invalid literal for int with base 10: abc (use widthxheight)" ∧
    mainModel ["800x600", "2", "50", "extra"] = MainOutcome.usage "too many args" :=
  ⟨rfl, rfl, rfl⟩

/-- Modelled from the spec: the external thread pool caps the requested
worker count at available hardware concurrency (spec §3: "the requested
degree of parallelism may not equal what actually ran (e.g., driver caps at
available hardware concurrency)"); `nb.get_num_threads()` then reports the
active count. -/
def activeThreads (hwCap requested : Nat) : Nat := min requested hwCap

/-- The values `main` interpolates into its per-sweep-point report (source
lines 139-154): the `nthreads=` line and the fixed-width cold and warm rows.
The requested worker count is nowhere among them. -/
structure SweepReport where
  nthreads : Nat
  coldCompileMs : ℚ
  coldEvalMs : ℚ
  coldNsPerElem : ℚ
  coldChecksum : ℚ
  warmCompileMs : ℚ
  warmEvalMs : ℚ
  warmNsPerElem : ℚ
  warmChecksum : ℚ
deriving DecidableEq

/-- The report printed for one sweep point, as a function of the measured
cold/warm nanosecond timings and the checksum returned by
`run_for_threads`. -/
def sweepPointReport (hwCap requested : Nat) (coldNs warmNs checksum : ℚ)
    (nitems : Nat) : SweepReport :=
  { nthreads := activeThreads hwCap requested
    coldCompileMs := coldNs / 1000000
    coldEvalMs := coldNs / 1000000
    coldNsPerElem := coldNs / (nitems : ℚ)
    coldChecksum := checksum
    warmCompileMs := 0
    warmEvalMs := warmNs / 1000000
    warmNsPerElem := warmNs / (nitems : ℚ)
    warmChecksum := checksum }

/-- The hard-coded sweep order of `main` (source line 135):
`for requested_threads in (1, 8)`. -/
def sweepRequests : List Nat := [1, 8]

/-- The whole sweep's sequence of per-point reports (with the two points'
timings and checksums taken as parameters — they are measured externally). -/
def mainSweep (hwCap : Nat) (coldNs warmNs checksum : ℚ) (nitems : Nat) :
    List SweepReport :=
  sweepRequests.map (fun r => sweepPointReport hwCap r coldNs warmNs checksum nitems)

/-- Counterexample to claim C3 as stated: with 4 hardware threads, the sweep
point that requests 8 workers prints a report identical to the one a request
for 4 workers would print — the requested worker count is not part of the
report, so the report cannot include "both the requested worker count and the
active worker count". -/
theorem sweep_report_requested_missing :
    sweepPointReport 4 8 1000000 500000 10 100
        = sweepPointReport 4 4 1000000 500000 10 100 ∧ (8 : Nat) ≠ 4 :=
  ⟨rfl, by decide⟩

/-- Claim C3 as amended: every sweep point's report includes the active
worker count that actually ran (the `nthreads=` line), together with the cold
metrics, warm metrics and checksum; the requested count is not printed (it is
only implicit in the hard-coded request order 1 then 8). -/
theorem sweep_report_contents (hwCap : Nat) (coldNs warmNs checksum : ℚ)
    (nitems : Nat) :
    (mainSweep hwCap coldNs warmNs checksum nitems).map (fun r => r.nthreads)
        = [activeThreads hwCap 1, activeThreads hwCap 8] ∧
    ∀ requested,
      (sweepPointReport hwCap requested coldNs warmNs checksum nitems).nthreads
          = activeThreads hwCap requested ∧
      (sweepPointReport hwCap requested coldNs warmNs checksum nitems).coldEvalMs
          = coldNs / 1000000 ∧
      (sweepPointReport hwCap requested coldNs warmNs checksum nitems).warmEvalMs
          = warmNs / 1000000 ∧
      (sweepPointReport hwCap requested coldNs warmNs checksum nitems).warmNsPerElem
          = warmNs / (nitems : ℚ) ∧
      (sweepPointReport hwCap requested coldNs warmNs checksum nitems).coldChecksum
          = checksum ∧
      (sweepPointReport hwCap requested coldNs warmNs checksum nitems).warmChecksum
          = checksum :=
  ⟨rfl, fun _ => ⟨rfl, rfl, rfl, rfl, rfl, rfl⟩⟩

end MandelBench
